import Mathlib

/-!
Verification of the quranc caching decorator (src/client.go).

The development shallowly embeds the bolt-backed cache middleware
(`boltCacheMiddleware`), its key/value encoding helpers, the namespace
bootstrap (`BoltCache`), and the result post-processing of the direct
client operations.

Modelling conventions:
* the bbolt store is a two-level tree of named buckets over association
  lists; `Get` of an absent key yields `none` (bbolt returns a nil slice),
  read and write transactions are the pure functions `dbGetTop`,
  `dbGetNested`, `dbPutTop`, `dbPutNested`;
* the gob value codec is an external collaborator: middleware operations
  are parametrised by a `Codec` record of its encode and decode
  functions, and the gob facts a theorem needs (decoding inverts
  encoding, decoding empty input fails with EOF) appear as explicit
  hypotheses; a concrete executable codec for `List Recitation` is
  provided for evaluation;
* the wrapped `QuranAPI` is a deterministic stub: a function from the
  number of calls made so far (a call counter, threaded through every
  middleware operation) and the original call arguments to a result;
* Go errors are modelled as `String` (for API errors) or `GobErr`
  (for codec errors); a Go `(value, error)` pair with the usual
  exactly-one-populated discipline is an `Except`.
-/

namespace Quranc

/-! ## Bytes and association lists -/

/-- Byte strings (cache keys and encoded values).  A Go `[]byte` is a list
of numbers; only identity of byte strings matters to the claims. -/
abbrev Bytes := List Nat

/-- Association-list lookup, first match wins (models map/bucket lookup). -/
def assocGet {κ β : Type} [DecidableEq κ] : List (κ × β) → κ → Option β
  | [], _ => none
  | (k1, v) :: rest, k => if k1 = k then some v else assocGet rest k

/-- Association-list insert-or-replace (models `bbolt.Bucket.Put`, which
overwrites an existing key). -/
def assocPut {κ β : Type} [DecidableEq κ] : List (κ × β) → κ → β → List (κ × β)
  | [], k, v => [(k, v)]
  | (k1, v1) :: rest, k, v =>
    if k1 = k then (k, v) :: rest else (k1, v1) :: assocPut rest k v

/-- Association-list in-place update of an existing entry; absent keys are
left untouched. -/
def assocUpd {κ β : Type} [DecidableEq κ] : List (κ × β) → κ → (β → β) → List (κ × β)
  | [], _, _ => []
  | (k1, v1) :: rest, k, f =>
    if k1 = k then (k1, f v1) :: rest else (k1, v1) :: assocUpd rest k f

/-! ## The durable store (bbolt model) -/

/-- One top-level bbolt bucket: its key/value pairs plus its nested
buckets (nested buckets in this program hold only key/value pairs). -/
structure Bucket where
  kvs : List (Bytes × Bytes)
  nested : List (String × List (Bytes × Bytes))
  deriving DecidableEq

/-- The bolt database: named top-level buckets. -/
abbrev DB := List (String × Bucket)

/-- Read a key from a top-level bucket inside a read transaction.
`bbolt.Bucket.Get` of an absent key returns nil, modelled as `none`;
a missing bucket (never reached after bootstrap) also yields `none`. -/
def dbGetTop (db : DB) (bucket : String) (k : Bytes) : Option Bytes :=
  (assocGet db bucket).bind (fun b => assocGet b.kvs k)

/-- Read a key from a nested bucket. -/
def dbGetNested (db : DB) (bucket nested : String) (k : Bytes) : Option Bytes :=
  (assocGet db bucket).bind (fun b =>
    (assocGet b.nested nested).bind (fun kvs => assocGet kvs k))

/-- Write a key into a top-level bucket inside a write transaction. -/
def dbPutTop (db : DB) (bucket : String) (k v : Bytes) : DB :=
  assocUpd db bucket (fun b => { b with kvs := assocPut b.kvs k v })

/-- Write a key into a nested bucket inside a write transaction. -/
def dbPutNested (db : DB) (bucket nested : String) (k v : Bytes) : DB :=
  assocUpd db bucket (fun b =>
    { b with nested := assocUpd b.nested nested (fun kvs => assocPut kvs k v) })

/-- Does a top-level bucket exist? -/
def hasTop (db : DB) (bucket : String) : Bool :=
  (assocGet db bucket).isSome

/-- Does a nested bucket exist inside the given top-level bucket? -/
def hasNested (db : DB) (bucket nested : String) : Bool :=
  ((assocGet db bucket).map (fun b => (assocGet b.nested nested).isSome)).getD false

/-! ## Entity data model (pass-through DTOs from src/client.go) -/

/-- Recitation entity. -/
structure Recitation where
  ID : Int
  Style : String
  ReciterNameEng : String
  ReciterNameTranslated : String
  deriving DecidableEq

/-- Translated name of an entity. -/
structure TranslatedName where
  LanguageName : String
  Name : String
  deriving DecidableEq

/-- Translation entity. -/
structure Translation where
  ID : Int
  AuthorName : String
  LanguageName : String
  Name : String
  Slug : String
  deriving DecidableEq

/-- Language entity. -/
structure Language where
  ID : Int
  Name : String
  IsoCode : String
  NativeName : String
  Direction : String
  TranslatedNames : List TranslatedName
  deriving DecidableEq

/-- Tafsir overview entity. -/
structure Tafsir where
  ID : Int
  AuthorName : String
  Slug : String
  Name : String
  LanguageName : String
  deriving DecidableEq

/-- Page range of a chapter (the anonymous `Pages` struct of `Chapter`). -/
structure ChapterPages where
  Start : Int
  End : Int
  deriving DecidableEq

/-- Chapter entity as returned to callers. -/
structure Chapter where
  ID : Int
  ChapterNumber : Int
  BismillahPre : Bool
  RevelationOrder : Int
  RevelationPlace : String
  NameComplex : String
  NameArabic : String
  NameSimple : String
  VersesCount : Int
  Pages : ChapterPages
  TranslatedName : TranslatedName
  deriving DecidableEq

/-- Chapter as shipped by the remote API (`Pages` is a list). -/
structure apiChapter where
  ID : Int
  ChapterNumber : Int
  BismillahPre : Bool
  RevelationOrder : Int
  RevelationPlace : String
  NameArabic : String
  NameComplex : String
  NameSimple : String
  VersesCount : Int
  Pages : List Int
  TranslatedName : TranslatedName
  deriving DecidableEq

/-- Conversion from the wire chapter to the public chapter
(`apiChapterToChapter`).  The Go code indexes `Pages[0]` and `Pages[1]`
directly (panicking on shorter lists); the model totalises those two
reads with a zero default, which no claim depends on. -/
def apiChapterToChapter (ch : apiChapter) : Chapter :=
  { ID := ch.ID
    ChapterNumber := ch.ChapterNumber
    BismillahPre := ch.BismillahPre
    RevelationOrder := ch.RevelationOrder
    RevelationPlace := ch.RevelationPlace
    NameArabic := ch.NameArabic
    NameComplex := ch.NameComplex
    NameSimple := ch.NameSimple
    VersesCount := ch.VersesCount
    Pages := { Start := ch.Pages.getD 0 0, End := ch.Pages.getD 1 0 }
    TranslatedName := ch.TranslatedName }

/-- Resource entity (translations, transliterations and similar). -/
structure Resource where
  ID : Int
  LanguageName : String
  Text : String
  ResourceName : String
  ResourceID : Int
  deriving DecidableEq

/-- Audio attachment of a word (anonymous struct in `Word`). -/
structure WordAudio where
  URL : String
  deriving DecidableEq

/-- Word entity. -/
structure Word where
  ID : Int
  Position : Int
  TextMadani : String
  TextIndopak : String
  TextSimple : String
  VerseKey : String
  ClassName : String
  LineNumber : Int
  PageNumber : Int
  Code : String
  CodeV3 : String
  CharType : String
  Audio : WordAudio
  Translation : Resource
  Transliteration : Resource
  deriving DecidableEq

/-- Audio attachment of a verse (anonymous struct in `Verse`). -/
structure VerseAudio where
  URL : String
  Duration : Int
  Segments : List (List String)
  Format : String
  deriving DecidableEq

/-- Media content attached to a verse (anonymous struct in `Verse`). -/
structure MediaContent where
  URL : String
  EmbedText : String
  Provider : String
  AuthorName : String
  deriving DecidableEq

/-- Verse entity. -/
structure Verse where
  ID : Int
  VerseNumber : Int
  ChapterID : Int
  VerseKey : String
  TextMadani : String
  TextIndopak : String
  TextSimple : String
  JuzNumber : Int
  HizbNumber : Int
  RubNumber : Int
  Sajdah : String
  SajdahNumber : Int
  PageNumber : Int
  Audio : VerseAudio
  Translations : List Resource
  MediaContents : List MediaContent
  Words : List Word
  deriving DecidableEq

/-- Full-text search request. -/
structure SearchRequest where
  Query : String
  Language : String
  Page : Int
  Size : Int
  deriving DecidableEq

/-- Verse hit inside a search response. -/
structure SearchVerse where
  ID : Int
  VerseNumber : Int
  ChapterID : Int
  VerseKey : String
  TextMadani : String
  Words : List Word
  Translations : List Resource
  deriving DecidableEq

/-- Full-text search response. -/
structure SearchResponse where
  Query : String
  TotalCount : Int
  Took : Int
  CurrentPage : Int
  TotalPages : Int
  PerPage : Int
  Results : List SearchVerse
  deriving DecidableEq

/-! ## Shared helpers (`itoa`, `join`, byte conversion, errors, codec) -/

/-- Errors produced by the wrapped content API and surfaced to callers
(Go `error` values, modelled by their message). -/
abbrev ApiErr := String

/-- Errors of the gob value codec.  `eof` is `io.EOF`, which
`gob.Decoder.Decode` returns when its input is empty; `msg` covers every
other encoding or decoding failure. -/
inductive GobErr where
  | eof : GobErr
  | msg (s : String) : GobErr
  deriving DecidableEq

/-- Decidable equality of `Except` results, for evaluating concrete
middleware runs. -/
instance {ε α : Type} [DecidableEq ε] [DecidableEq α] : DecidableEq (Except ε α) :=
  fun x y =>
    match x, y with
    | .ok a, .ok b =>
      match decEq a b with
      | isTrue h => isTrue (by rw [h])
      | isFalse h => isFalse (by intro hc; cases hc; exact h rfl)
    | .error a, .error b =>
      match decEq a b with
      | isTrue h => isTrue (by rw [h])
      | isFalse h => isFalse (by intro hc; cases hc; exact h rfl)
    | .ok _, .error _ => isFalse (by intro hc; cases hc)
    | .error _, .ok _ => isFalse (by intro hc; cases hc)

/-- Encode and decode functions of the gob value codec at one payload
type (`valueEncoder` and the decoder inside `valueDecode` wrap these).
gob is an external collaborator, so middleware operations are
parametrised by this record; facts about gob that a theorem needs are
explicit hypotheses of that theorem. -/
structure Codec (α : Type) where
  enc : α → Except GobErr Bytes
  dec : Bytes → Except GobErr α

/-- The repository's `valueDecode` applied to the result of a bucket
`Get`: an absent key returns nil bytes, and nil and empty byte slices
both present an empty buffer to the gob decoder. -/
def valueDecode {α : Type} (c : Codec α) (b : Option Bytes) : Except GobErr α :=
  c.dec (b.getD [])

/-- The repository's `itoa` helper (`strconv.Itoa`). -/
def itoa (i : Int) : String :=
  if i < 0 then "-" ++ Nat.repr i.natAbs else Nat.repr i.natAbs

/-- The repository's `join` helper (`strings.Join(ss, ":")`). -/
def join (ss : List String) : String :=
  String.intercalate ":" ss

/-- Conversion of a string cache key to bytes (`[]byte(s)` in Go).  The
byte-level UTF-8 expansion is abstracted to the character sequence;
only identity of keys matters to the claims and this map is injective. -/
def strBytes (s : String) : Bytes :=
  s.data.map Char.toNat

/-! ## Request options -/

/-- Scalar request option bag (`reqOpt`); the zero value has
`languageID = 0`. -/
structure reqOpt where
  languageID : Int
  deriving DecidableEq

/-- Functional option for scalar operations (`ReqOptFn`). -/
abbrev ReqOptFn := reqOpt → reqOpt

/-- The `LanguageID` option constructor. -/
def LanguageID (id : Int) : ReqOptFn :=
  fun opt => { opt with languageID := id }

/-- Folding a variadic option list over the zero value, as every
operation does on entry. -/
def foldReqOpts (fns : List ReqOptFn) : reqOpt :=
  fns.foldl (fun opt f => f opt) { languageID := 0 }

/-- Verse listing option bag (`versesReqOpt`); the zero value has empty
strings, zero numbers and nil slices. -/
structure versesReqOpt where
  Language : String
  Recitation : Int
  TextType : String
  Page : Int
  Limit : Int
  Offset : Int
  Media : List Int
  Translations : List Int
  deriving DecidableEq

/-- The zero value of `versesReqOpt`. -/
def versesReqOptZero : versesReqOpt :=
  { Language := "", Recitation := 0, TextType := "", Page := 0, Limit := 0,
    Offset := 0, Media := [], Translations := [] }

/-- Functional option for verse listing (`VersesReqOptFn`). -/
abbrev VersesReqOptFn := versesReqOpt → versesReqOpt

/-- The `VersesMedia` option constructor. -/
def VersesMedia (media : List Int) : VersesReqOptFn :=
  fun opts => { opts with Media := media }

/-- The `VersesTranslations` option constructor. -/
def VersesTranslations (translations : List Int) : VersesReqOptFn :=
  fun opts => { opts with Translations := translations }

/-- Folding a variadic verse option list over the zero value. -/
def foldVersesOpts (fns : List VersesReqOptFn) : versesReqOpt :=
  fns.foldl (fun opts f => f opts) versesReqOptZero

/-- The anonymous struct gob-encoded by `versesReqOpt.key`: the option
bag (with sorted slices) plus the chapter id. -/
structure versesKeyInput where
  VerseReqOpts : versesReqOpt
  ChapterID : Int
  deriving DecidableEq

/-- Ascending sort of a Go `[]int` (`sort.Ints`). -/
def sortInts (l : List Int) : List Int :=
  List.insertionSort (fun a b => a ≤ b) l

/-- Cache-key derivation for verse listings (`versesReqOpt.key`): sort
the `Media` and `Translations` filters ascending, then structurally
encode the whole argument struct with gob.  The gob encoder for the
input struct is the parameter `g`; its byte output (or failure) is
returned unchanged. -/
def versesReqOpt.key (g : versesKeyInput → Except GobErr Bytes)
    (v : versesReqOpt) (chapterID : Int) : Except GobErr Bytes :=
  g { VerseReqOpts :=
        { v with Media := sortInts v.Media, Translations := sortInts v.Translations }
      ChapterID := chapterID }

/-! ## Bucket names and namespace bootstrap (`BoltCache`) -/

/-- Bucket name constant `bucketChapters`. -/
def bucketChapters : String := "chapters"

/-- Bucket name constant `bucketChapter` (nested under chapters). -/
def bucketChapter : String := "chapter"

/-- Bucket name constant `bucketChapterInfo` (nested under chapters). -/
def bucketChapterInfo : String := "chapterinfo"

/-- Bucket name constant `bucketJuzzah`. -/
def bucketJuzzah : String := "juzzah"

/-- Bucket name constant `bucketLanguages`. -/
def bucketLanguages : String := "languages"

/-- Bucket name constant `bucketRecitations`. -/
def bucketRecitations : String := "recitations"

/-- Bucket name constant `bucketTafsiraat`. -/
def bucketTafsiraat : String := "tafsiraat"

/-- Bucket name constant `bucketTranslations`. -/
def bucketTranslations : String := "translations"

/-- Bucket name constant `bucketVerse` (nested under verses). -/
def bucketVerse : String := "verse"

/-- Bucket name constant `bucketVerseTafsir` (nested under verses). -/
def bucketVerseTafsir : String := "verse_tafsir"

/-- Bucket name constant `bucketVerses`. -/
def bucketVerses : String := "verses"

/-- The bucket tree required by `BoltCache`: each top-level bucket with
its nested buckets.  The Go source stores this as a map literal and
iterates it in unspecified order; the model fixes the literal order,
which no claim depends on. -/
def bucketsSpecList : List (String × List String) :=
  [(bucketChapters, [bucketChapter, bucketChapterInfo]),
   (bucketJuzzah, []),
   (bucketLanguages, []),
   (bucketRecitations, []),
   (bucketTafsiraat, []),
   (bucketTranslations, []),
   (bucketVerses, [bucketVerse, bucketVerseTafsir])]

/-- `tx.CreateBucketIfNotExists` for a top-level bucket.  An existing
bucket is returned unchanged without error; creating an absent bucket
appends an empty one, or fails when the store-failure oracle `fail`
says the creation attempt fails (bbolt creation can fail for store-level
reasons; the oracle makes that observable). -/
def createTop (fail : String → Bool) (db : DB) (name : String) : Except String DB :=
  match assocGet db name with
  | some _ => .ok db
  | none =>
    if fail name then .error ("create bucket " ++ name)
    else .ok (db ++ [(name, { kvs := [], nested := [] })])

/-- `b.CreateBucketIfNotExists` for a nested bucket inside `parent`.
The parent is present whenever `BoltCache` reaches this step. -/
def createNestedIn (fail : String → Bool) (db : DB) (parent child : String) :
    Except String DB :=
  match assocGet db parent with
  | none => .error ("missing bucket " ++ parent)
  | some b =>
    match assocGet b.nested child with
    | some _ => .ok db
    | none =>
      if fail child then .error ("create nested bucket " ++ child)
      else .ok (assocUpd db parent (fun b2 => { b2 with nested := b2.nested ++ [(child, [])] }))

/-- One `db.Update` of the bootstrap loop: create one top-level bucket
and then each of its nested buckets. -/
def bootstrapBucket (fail : String → Bool) (db : DB) (entry : String × List String) :
    Except String DB :=
  (createTop fail db entry.1).bind (fun db1 =>
    List.foldlM (fun d c => createNestedIn fail d entry.1 c) db1 entry.2)

/-- `BoltCache` bootstrap: ensure every required namespace and nested
namespace exists.  On success the middleware (its store handle) is
returned; on the first failure the error is returned and no middleware
is constructed (Go returns `nil, err`), which the `Except` result
captures. -/
def BoltCache (fail : String → Bool) (db : DB) : Except String DB :=
  List.foldlM (bootstrapBucket fail) db bucketsSpecList

/-! ## Cache middleware operations (`boltCacheMiddleware`) -/

/-- The shared read-through shape of every cacheable middleware method:
look the key up inside a read transaction and return the decoded value on
success (the wrapped API is never called); otherwise treat any failure as
a miss, invoke the wrapped API (counted by the stub call counter), return
its error unchanged on failure, and on success persist best-effort and
return the fresh value. -/
def readThrough {α : Type} (lookup : DB → Except GobErr α)
    (fetch : Nat → Except ApiErr α) (write : DB → α → DB)
    (db : DB) (calls : Nat) : Except ApiErr α × DB × Nat :=
  match lookup db with
  | .ok out => (.ok out, db, calls)
  | .error _ =>
    match fetch calls with
    | .error e => (.error e, db, calls + 1)
    | .ok clientOut => (.ok clientOut, write db clientOut, calls + 1)

/-- The best-effort write transaction of a top-level-bucket operation:
encode the fresh value and `Put` it.  Any failure (encoding error, or a
store-level write failure injected by `putFails`) rolls the transaction
back and is swallowed — the store is left unchanged and no error
escapes (the Go source discards the `db.Update` result). -/
def cacheWriteTop {α : Type} (c : Codec α) (putFails : Bool) (bucket : String)
    (cacheID : Bytes) (db : DB) (v : α) : DB :=
  match c.enc v with
  | .error _ => db
  | .ok buf => if putFails then db else dbPutTop db bucket cacheID buf

/-- The best-effort write transaction of a nested-bucket operation. -/
def cacheWriteNested {α : Type} (c : Codec α) (putFails : Bool)
    (bucket nested : String) (cacheID : Bytes) (db : DB) (v : α) : DB :=
  match c.enc v with
  | .error _ => db
  | .ok buf => if putFails then db else dbPutNested db bucket nested cacheID buf

/-- The read path of `boltCacheMiddleware.Recitations` (and of every
other scalar-keyed operation): one `db.View` that feeds the bucket `Get`
result straight into `valueDecode`. -/
def lookupScalar {α : Type} (c : Codec α) (bucket : String) (cacheID : Bytes)
    (db : DB) : Except GobErr α :=
  valueDecode c (dbGetTop db bucket cacheID)

/-- Cache key of the scalar-keyed operations: the textual form of the
folded language filter (`cacheID := []byte(itoa(opt.languageID))`). -/
def scalarCacheID (reqOpts : List ReqOptFn) : Bytes :=
  strBytes (itoa (foldReqOpts reqOpts).languageID)

/-- The common body of the five scalar-keyed middleware methods
(`Recitations`, `Translations`, `Languages`, `Tafsiraat`, `Chapters`),
which differ only in their bucket name and payload type. -/
def mwScalarOp {α : Type} (bucket : String) (c : Codec α) (putFails : Bool)
    (next : Nat → List ReqOptFn → Except ApiErr α)
    (reqOpts : List ReqOptFn) (db : DB) (calls : Nat) :
    Except ApiErr α × DB × Nat :=
  readThrough
    (lookupScalar c bucket (scalarCacheID reqOpts))
    (fun n => next n reqOpts)
    (fun d v => cacheWriteTop c putFails bucket (scalarCacheID reqOpts) d v)
    db calls

/-- `boltCacheMiddleware.Recitations`. -/
def mwRecitations (c : Codec (List Recitation)) (putFails : Bool)
    (next : Nat → List ReqOptFn → Except ApiErr (List Recitation))
    (reqOpts : List ReqOptFn) (db : DB) (calls : Nat) :
    Except ApiErr (List Recitation) × DB × Nat :=
  mwScalarOp bucketRecitations c putFails next reqOpts db calls

/-- `boltCacheMiddleware.Translations`. -/
def mwTranslations (c : Codec (List Translation)) (putFails : Bool)
    (next : Nat → List ReqOptFn → Except ApiErr (List Translation))
    (reqOpts : List ReqOptFn) (db : DB) (calls : Nat) :
    Except ApiErr (List Translation) × DB × Nat :=
  mwScalarOp bucketTranslations c putFails next reqOpts db calls

/-- `boltCacheMiddleware.Languages`. -/
def mwLanguages (c : Codec (List Language)) (putFails : Bool)
    (next : Nat → List ReqOptFn → Except ApiErr (List Language))
    (reqOpts : List ReqOptFn) (db : DB) (calls : Nat) :
    Except ApiErr (List Language) × DB × Nat :=
  mwScalarOp bucketLanguages c putFails next reqOpts db calls

/-- `boltCacheMiddleware.Tafsiraat`. -/
def mwTafsiraat (c : Codec (List Tafsir)) (putFails : Bool)
    (next : Nat → List ReqOptFn → Except ApiErr (List Tafsir))
    (reqOpts : List ReqOptFn) (db : DB) (calls : Nat) :
    Except ApiErr (List Tafsir) × DB × Nat :=
  mwScalarOp bucketTafsiraat c putFails next reqOpts db calls

/-- `boltCacheMiddleware.Chapters`. -/
def mwChapters (c : Codec (List Chapter)) (putFails : Bool)
    (next : Nat → List ReqOptFn → Except ApiErr (List Chapter))
    (reqOpts : List ReqOptFn) (db : DB) (calls : Nat) :
    Except ApiErr (List Chapter) × DB × Nat :=
  mwScalarOp bucketChapters c putFails next reqOpts db calls

/-- Cache key of `boltCacheMiddleware.Chapter`
(`join(itoa(opt.languageID), itoa(id))`). -/
def chapterCacheID (reqOpts : List ReqOptFn) (id : Int) : Bytes :=
  strBytes (join [itoa (foldReqOpts reqOpts).languageID, itoa id])

/-- `boltCacheMiddleware.Chapter`: single-chapter lookup cached in the
`chapter` bucket nested under `chapters`. -/
def mwChapter (c : Codec Chapter) (putFails : Bool)
    (next : Nat → Int → List ReqOptFn → Except ApiErr Chapter)
    (id : Int) (reqOpts : List ReqOptFn) (db : DB) (calls : Nat) :
    Except ApiErr Chapter × DB × Nat :=
  readThrough
    (fun d => valueDecode c (dbGetNested d bucketChapters bucketChapter (chapterCacheID reqOpts id)))
    (fun n => next n id reqOpts)
    (fun d v => cacheWriteNested c putFails bucketChapters bucketChapter (chapterCacheID reqOpts id) d v)
    db calls

/-- `boltCacheMiddleware.Verses`: derive the structured cache key; if key
derivation fails, fall back to an uncached pass-through call with the
original arguments (the derivation error itself is dropped); otherwise
run the shared read-through body against the `verses` bucket. -/
def mwVerses (g : versesKeyInput → Except GobErr Bytes) (c : Codec (List Verse))
    (putFails : Bool)
    (next : Nat → Int → List VersesReqOptFn → Except ApiErr (List Verse))
    (chapterID : Int) (reqOpts : List VersesReqOptFn) (db : DB) (calls : Nat) :
    Except ApiErr (List Verse) × DB × Nat :=
  match versesReqOpt.key g (foldVersesOpts reqOpts) chapterID with
  | .error _ => (next calls chapterID reqOpts, db, calls + 1)
  | .ok cacheID =>
    readThrough
      (lookupScalar c bucketVerses cacheID)
      (fun n => next n chapterID reqOpts)
      (fun d v => cacheWriteTop c putFails bucketVerses cacheID d v)
      db calls

/-- `boltCacheMiddleware.Search`: full-text search is never cached; the
call delegates to the wrapped API with the original query, touching
neither the read nor the write path of the store. -/
def mwSearch (next : Nat → SearchRequest → Except ApiErr SearchResponse)
    (query : SearchRequest) (db : DB) (calls : Nat) :
    Except ApiErr SearchResponse × DB × Nat :=
  (next calls query, db, calls + 1)

/-! ## Direct client result ordering (`Client.Translations` and friends)

The HTTP request construction and JSON decoding of the direct client are
out-of-scope plumbing; each operation below takes the decoded response
(or the transport/decoding error) as its argument and embeds the
post-processing the Go method applies before returning.  `sort.Slice`
with a strict less-than comparator yields a slice that is nondecreasing
in the compared field; it is modelled with `List.insertionSort` on the
corresponding non-strict relation. -/

/-- Result stage of `Client.Translations`: sort ascending by `ID`. -/
def clientTranslations (resp : Except ApiErr (List Translation)) :
    Except ApiErr (List Translation) :=
  match resp with
  | .error e => .error e
  | .ok l => .ok (List.insertionSort (fun a b => a.ID ≤ b.ID) l)

/-- Result stage of `Client.Languages`: sort ascending by `ID`. -/
def clientLanguages (resp : Except ApiErr (List Language)) :
    Except ApiErr (List Language) :=
  match resp with
  | .error e => .error e
  | .ok l => .ok (List.insertionSort (fun a b => a.ID ≤ b.ID) l)

/-- Result stage of `Client.Tafsiraat`: sort ascending by `ID`. -/
def clientTafsiraat (resp : Except ApiErr (List Tafsir)) :
    Except ApiErr (List Tafsir) :=
  match resp with
  | .error e => .error e
  | .ok l => .ok (List.insertionSort (fun a b => a.ID ≤ b.ID) l)

/-- Result stage of `Client.Chapters`: convert each wire chapter and sort
ascending by `ChapterNumber`. -/
def clientChapters (resp : Except ApiErr (List apiChapter)) :
    Except ApiErr (List Chapter) :=
  match resp with
  | .error e => .error e
  | .ok l =>
    .ok (List.insertionSort (fun a b => a.ChapterNumber ≤ b.ChapterNumber)
      (l.map apiChapterToChapter))

/-! ## A concrete executable model of the gob codec at `List Recitation`

Used to evaluate middleware behaviour on concrete inputs.  It keeps the
two gob facts the claims rest on: decoding empty input fails with EOF
(gob documents that `Decode` returns `io.EOF` at end of input, and a
bucket `Get` of an absent key supplies exactly that empty input), and
decoding inverts encoding. -/

/-- Length-prefixed string encoding. -/
def encStr (s : String) : Bytes :=
  s.length :: s.data.map Char.toNat

/-- Sign-and-magnitude integer encoding. -/
def encInt (i : Int) : Bytes :=
  match i with
  | .ofNat n => [0, n]
  | .negSucc n => [1, n]

/-- Field-by-field encoding of one `Recitation`. -/
def encRecitation (r : Recitation) : Bytes :=
  encInt r.ID ++ encStr r.Style ++ encStr r.ReciterNameEng ++ encStr r.ReciterNameTranslated

/-- Length-prefixed encoding of a `List Recitation`; never empty. -/
def gobEncRecitations (l : List Recitation) : Bytes :=
  l.length :: (l.map encRecitation).flatten

/-- Parse a length-prefixed string. -/
def parseStr (bs : Bytes) : Option (String × Bytes) :=
  match bs with
  | [] => none
  | n :: rest =>
    if n ≤ rest.length then
      some (String.mk ((rest.take n).map Char.ofNat), rest.drop n)
    else none

/-- Parse a sign-and-magnitude integer. -/
def parseInt (bs : Bytes) : Option (Int × Bytes) :=
  match bs with
  | 0 :: n :: rest => some (Int.ofNat n, rest)
  | 1 :: n :: rest => some (Int.negSucc n, rest)
  | _ => none

/-- Parse one `Recitation`. -/
def parseRecitation (bs : Bytes) : Option (Recitation × Bytes) := do
  let (id, bs1) ← parseInt bs
  let (style, bs2) ← parseStr bs1
  let (eng, bs3) ← parseStr bs2
  let (translated, bs4) ← parseStr bs3
  some ({ ID := id, Style := style, ReciterNameEng := eng,
          ReciterNameTranslated := translated }, bs4)

/-- Parse a counted sequence of recitations. -/
def parseRecitations : Nat → Bytes → Option (List Recitation × Bytes)
  | 0, bs => some ([], bs)
  | n + 1, bs => do
    let (r, bs1) ← parseRecitation bs
    let (rs, bs2) ← parseRecitations n bs1
    some (r :: rs, bs2)

/-- Decoding for `List Recitation`: empty input fails with EOF, anything
that does not parse as a full encoded list fails as corrupt. -/
def gobDecRecitations (bs : Bytes) : Except GobErr (List Recitation) :=
  match bs with
  | [] => .error .eof
  | n :: rest =>
    match parseRecitations n rest with
    | some (l, []) => .ok l
    | _ => .error (.msg "corrupt")

/-- The executable gob-codec model at `List Recitation`. -/
def gobModelRecitations : Codec (List Recitation) :=
  { enc := fun l => .ok (gobEncRecitations l), dec := gobDecRecitations }

/-! ## Concrete fixtures for evaluation -/

/-- The failure oracle that never fails a bucket creation. -/
def failNone : String → Bool := fun _ => false

/-- The failure oracle that fails every bucket creation attempt. -/
def failAll : String → Bool := fun _ => true

/-- The store after a clean bootstrap of an empty database. -/
def dbBootAll : DB :=
  [(bucketChapters, { kvs := [], nested := [(bucketChapter, []), (bucketChapterInfo, [])] }),
   (bucketJuzzah, { kvs := [], nested := [] }),
   (bucketLanguages, { kvs := [], nested := [] }),
   (bucketRecitations, { kvs := [], nested := [] }),
   (bucketTafsiraat, { kvs := [], nested := [] }),
   (bucketTranslations, { kvs := [], nested := [] }),
   (bucketVerses, { kvs := [], nested := [(bucketVerse, []), (bucketVerseTafsir, [])] })]

/-- A concrete chapter value (the spec's first-chapter scenario). -/
def chapterOne : Chapter :=
  { ID := 1, ChapterNumber := 1, BismillahPre := false, RevelationOrder := 5,
    RevelationPlace := "makkah", NameComplex := "Al-Fatihah", NameArabic := "",
    NameSimple := "Al-Fatihah", VersesCount := 7,
    Pages := { Start := 1, End := 1 },
    TranslatedName := { LanguageName := "english", Name := "The Opener" } }

/-- A test-double codec for `Chapter` that round-trips `chapterOne`. -/
def chapterStubCodec : Codec Chapter :=
  { enc := fun _ => .ok [1],
    dec := fun bs => if bs = [1] then .ok chapterOne else .error .eof }

/-- A stubbed wrapped `Chapter` endpoint that always succeeds with
`chapterOne`. -/
def chapterStubNext : Nat → Int → List ReqOptFn → Except ApiErr Chapter :=
  fun _ _ _ => .ok chapterOne

/-- A stubbed wrapped `Chapter` endpoint that always fails; used to show
the second, cache-hitting call never reaches the wrapped API. -/
def chapterStubNextFails : Nat → Int → List ReqOptFn → Except ApiErr Chapter :=
  fun _ _ _ => .error "wrapped API reached"

/-- The store state after the first decorated `Chapter(1)` call against
`dbBootAll`. -/
def dbAfterChapter : DB :=
  dbPutNested dbBootAll bucketChapters bucketChapter (chapterCacheID [] 1) [1]

/-- A test-double codec for `List Verse` whose decode always fails (so
every lookup misses). -/
def versesMissCodec : Codec (List Verse) :=
  { enc := fun _ => .ok [2], dec := fun _ => .error .eof }

/-- A test-double codec for `List Verse` whose encode always fails (the
write path is forced to fail). -/
def versesEncFailCodec : Codec (List Verse) :=
  { enc := fun _ => .error (.msg "encode failed"), dec := fun _ => .error .eof }

/-- A gob encoder stub for the verses key input that always succeeds. -/
def versesKeyEncOk : versesKeyInput → Except GobErr Bytes :=
  fun input => .ok (input.VerseReqOpts.Translations.map Int.natAbs ++
    [input.ChapterID.natAbs])

/-- A gob encoder stub for the verses key input that always fails. -/
def versesKeyEncFails : versesKeyInput → Except GobErr Bytes :=
  fun _ => .error (.msg "gob encode failed")

/-- A store holding only an empty `recitations` bucket. -/
def dbRecitationsOnly : DB :=
  [(bucketRecitations, { kvs := [], nested := [] })]

/-- A store whose `recitations` bucket maps the zero-language key to an
empty (zero-length) value, whose decode fails exactly like an absent
key. -/
def dbRecitationsCorrupt : DB :=
  [(bucketRecitations, { kvs := [(strBytes (itoa 0), [])], nested := [] })]

/-- A concrete out-of-order translation pair. -/
def translationA : Translation :=
  { ID := 20, AuthorName := "a", LanguageName := "english", Name := "n", Slug := "s" }

/-- A concrete translation with a smaller id. -/
def translationB : Translation :=
  { ID := 3, AuthorName := "b", LanguageName := "english", Name := "m", Slug := "t" }

/-! ## Store lemmas -/

theorem assocGet_assocPut_self {κ β : Type} [DecidableEq κ]
    (l : List (κ × β)) (k : κ) (v : β) : assocGet (assocPut l k v) k = some v := by
  induction l with
  | nil => simp [assocPut, assocGet]
  | cons hd tl ih =>
    obtain ⟨k1, v1⟩ := hd
    by_cases h : k1 = k
    · simp [assocPut, h, assocGet]
    · simp [assocPut, h, assocGet, ih]

theorem assocGet_assocUpd_self {κ β : Type} [DecidableEq κ]
    (l : List (κ × β)) (k : κ) (f : β → β) :
    assocGet (assocUpd l k f) k = (assocGet l k).map f := by
  induction l with
  | nil => simp [assocUpd, assocGet]
  | cons hd tl ih =>
    obtain ⟨k1, v1⟩ := hd
    by_cases h : k1 = k
    · simp [assocUpd, h, assocGet]
    · simp [assocUpd, h, assocGet, ih]

theorem assocGet_assocUpd_ne {κ β : Type} [DecidableEq κ]
    (l : List (κ × β)) (k q : κ) (f : β → β) (h : k ≠ q) :
    assocGet (assocUpd l k f) q = assocGet l q := by
  induction l with
  | nil => simp [assocUpd]
  | cons hd tl ih =>
    obtain ⟨k1, v1⟩ := hd
    by_cases h1 : k1 = k
    · subst h1
      simp [assocUpd, assocGet, h]
    · by_cases h2 : k1 = q <;> simp [assocUpd, assocGet, h1, h2, Ne.symm h, ih]

theorem assocGet_append_single {κ β : Type} [DecidableEq κ]
    (l : List (κ × β)) (k q : κ) (v : β) :
    assocGet (l ++ [(k, v)]) q =
      (assocGet l q).or (if k = q then some v else none) := by
  induction l with
  | nil => simp [assocGet]
  | cons hd tl ih =>
    obtain ⟨k1, v1⟩ := hd
    by_cases h : k1 = q <;> simp [assocGet, h, ih]

theorem dbGetTop_dbPutTop_self (db : DB) (bucket : String) (k v : Bytes)
    (h : hasTop db bucket = true) :
    dbGetTop (dbPutTop db bucket k v) bucket k = some v := by
  cases hb : assocGet db bucket with
  | none => simp [hasTop, hb] at h
  | some b => simp [dbGetTop, dbPutTop, assocGet_assocUpd_self, hb, assocGet_assocPut_self]

theorem dbGetNested_dbPutNested_self (db : DB) (bucket nested : String) (k v : Bytes)
    (h : hasNested db bucket nested = true) :
    dbGetNested (dbPutNested db bucket nested k v) bucket nested k = some v := by
  cases hb : assocGet db bucket with
  | none => simp [hasNested, hb] at h
  | some b =>
    simp only [hasNested, hb, Option.map_some, Option.getD_some] at h
    cases hn : assocGet b.nested nested with
    | none => simp [hn] at h
    | some kvs =>
      simp [dbGetNested, dbPutNested, assocGet_assocUpd_self, hb, hn,
        assocGet_assocPut_self]

/-! ## Read-through lemmas -/

theorem readThrough_hit {α : Type} {lookup : DB → Except GobErr α}
    {fetch : Nat → Except ApiErr α} {write : DB → α → DB} {db : DB} {calls : Nat}
    {v : α} (h : lookup db = .ok v) :
    readThrough lookup fetch write db calls = (.ok v, db, calls) := by
  simp [readThrough, h]

theorem readThrough_cases {α : Type} {lookup : DB → Except GobErr α}
    {fetch : Nat → Except ApiErr α} {write : DB → α → DB} {db db1 : DB}
    {calls calls1 : Nat} {V : α}
    (h : readThrough lookup fetch write db calls = (.ok V, db1, calls1)) :
    (lookup db = .ok V ∧ db1 = db ∧ calls1 = calls) ∨
      ((∃ e, lookup db = .error e) ∧ fetch calls = .ok V ∧
        db1 = write db V ∧ calls1 = calls + 1) := by
  unfold readThrough at h
  cases hl : lookup db with
  | ok out =>
    rw [hl] at h
    simp only [Prod.mk.injEq] at h
    obtain ⟨h1, h2, h3⟩ := h
    cases h1
    exact Or.inl ⟨rfl, h2.symm, h3.symm⟩
  | error e =>
    rw [hl] at h
    cases hf : fetch calls with
    | error e2 => rw [hf] at h; simp at h
    | ok out =>
      rw [hf] at h
      simp only [Prod.mk.injEq] at h
      obtain ⟨h1, h2, h3⟩ := h
      cases h1
      exact Or.inr ⟨⟨e, rfl⟩, rfl, h2.symm, h3.symm⟩

/-! ## Claims -/

/-- C1: Hit-after-miss for the decorated `Chapter` operation.  If a first
decorated call with arguments `(id, reqOpts)` completes successfully
returning `V`, where the best-effort store write also succeeds (the
nested namespace exists after bootstrap, gob encoding of `V` succeeds,
and the store-level write does not fail), and gob decoding inverts that
encoding, then an immediately following decorated call with the same
arguments returns `V` without invoking the wrapped API: the second call
leaves the store and the stub call counter unchanged and its result does
not depend on the second stub `next2` at all. -/
theorem chapter_hit_after_miss
    (c : Codec Chapter)
    (next next2 : Nat → Int → List ReqOptFn → Except ApiErr Chapter)
    (id : Int) (reqOpts : List ReqOptFn) (db db1 : DB) (calls calls1 : Nat)
    (V : Chapter) (bs : Bytes)
    (hboot : hasNested db bucketChapters bucketChapter = true)
    (henc : c.enc V = .ok bs)
    (hrt : c.dec bs = .ok V)
    (h1 : mwChapter c false next id reqOpts db calls = (.ok V, db1, calls1)) :
    mwChapter c false next2 id reqOpts db1 calls1 = (.ok V, db1, calls1) := by
  unfold mwChapter at h1 ⊢
  rcases readThrough_cases h1 with ⟨hl, hdb, hcalls⟩ | ⟨⟨e, hl⟩, hf, hdb, hcalls⟩
  · subst hdb
    exact readThrough_hit hl
  · subst hdb
    have hwrite : cacheWriteNested c false bucketChapters bucketChapter
        (chapterCacheID reqOpts id) db V =
        dbPutNested db bucketChapters bucketChapter (chapterCacheID reqOpts id) bs := by
      simp [cacheWriteNested, henc]
    rw [hwrite]
    apply readThrough_hit
    have hget := dbGetNested_dbPutNested_self db bucketChapters bucketChapter
      (chapterCacheID reqOpts id) bs hboot
    simp [valueDecode, hget, hrt]

/-- Witness for C1: the spec's concrete scenario.  A first `Chapter(1)`
call against a freshly bootstrapped store misses, fetches `chapterOne`
from the stub and persists it; the second call returns `chapterOne` even
though its stub wrapped API always fails, proving the wrapped API is not
invoked. -/
theorem chapter_hit_after_miss_witness :
    mwChapter chapterStubCodec false chapterStubNextFails 1 [] dbAfterChapter 1 =
      (.ok chapterOne, dbAfterChapter, 1) :=
  chapter_hit_after_miss chapterStubCodec chapterStubNext chapterStubNextFails
    1 [] dbBootAll dbAfterChapter 0 1 chapterOne [1]
    (by decide) rfl (by decide) (by decide)

/-- C2: Error transparency for the decorated `Verses` operation.  When
the cache key derives successfully, the lookup misses (any decode
failure, which covers the absent-key case), and the wrapped API call
fails with error `E`, the decorated call returns exactly `E` with no
value (Go returns the nil zero value next to `E`), the store is left
byte-for-byte unchanged, and exactly one wrapped call was made. -/
theorem verses_error_transparency
    (g : versesKeyInput → Except GobErr Bytes) (c : Codec (List Verse))
    (putFails : Bool)
    (next : Nat → Int → List VersesReqOptFn → Except ApiErr (List Verse))
    (chapterID : Int) (reqOpts : List VersesReqOptFn) (db : DB) (calls : Nat)
    (k : Bytes) (E : ApiErr)
    (hk : versesReqOpt.key g (foldVersesOpts reqOpts) chapterID = .ok k)
    (hmiss : ∃ e, lookupScalar c bucketVerses k db = .error e)
    (hfetch : next calls chapterID reqOpts = .error E) :
    mwVerses g c putFails next chapterID reqOpts db calls =
      (.error E, db, calls + 1) := by
  obtain ⟨e, he⟩ := hmiss
  simp [mwVerses, hk, readThrough, he, hfetch]

/-- Witness for C2: against a bootstrapped store (lookup of the absent
key misses) the stub wrapped API fails with "upstream down", and the
decorated call surfaces exactly that error, leaving the store
unchanged. -/
theorem verses_error_transparency_witness :
    mwVerses versesKeyEncOk versesMissCodec false
        (fun _ _ _ => .error "upstream down") 2 [] dbBootAll 0 =
      (.error "upstream down", dbBootAll, 1) :=
  verses_error_transparency versesKeyEncOk versesMissCodec false
    (fun _ _ _ => .error "upstream down") 2 [] dbBootAll 0
    [2] "upstream down" rfl ⟨.eof, rfl⟩ rfl

/-- C3: Write-failure isolation for the decorated `Verses` operation.
When the key derives, the lookup misses and the wrapped fetch succeeds
with `V`, the decorated call returns `V` with no error for every codec
and store-write behaviour — in particular when encoding fails or the
store write fails — and that returned pair is identical to the one of
the write-success case (the result never depends on the write flag). -/
theorem verses_write_failure_isolation
    (g : versesKeyInput → Except GobErr Bytes) (c : Codec (List Verse))
    (putFails : Bool)
    (next : Nat → Int → List VersesReqOptFn → Except ApiErr (List Verse))
    (chapterID : Int) (reqOpts : List VersesReqOptFn) (db : DB) (calls : Nat)
    (k : Bytes) (V : List Verse)
    (hk : versesReqOpt.key g (foldVersesOpts reqOpts) chapterID = .ok k)
    (hmiss : ∃ e, lookupScalar c bucketVerses k db = .error e)
    (hfetch : next calls chapterID reqOpts = .ok V) :
    (mwVerses g c putFails next chapterID reqOpts db calls).1 = .ok V ∧
      ∀ putFails2 : Bool,
        (mwVerses g c putFails next chapterID reqOpts db calls).1 =
          (mwVerses g c putFails2 next chapterID reqOpts db calls).1 := by
  obtain ⟨e, he⟩ := hmiss
  have hval : ∀ pf : Bool,
      (mwVerses g c pf next chapterID reqOpts db calls).1 = .ok V := by
    intro pf
    simp [mwVerses, hk, readThrough, he, hfetch]
  exact ⟨hval putFails, fun pf2 => (hval putFails).trans (hval pf2).symm⟩

/-- Witness for C3: with a codec whose encode always fails and with the
store-write failure injected, a missing fetch-success call still returns
the fresh (empty) verse list and no error. -/
theorem verses_write_failure_isolation_witness :
    (mwVerses versesKeyEncOk versesEncFailCodec true
        (fun _ _ _ => .ok []) 2 [] dbBootAll 0).1 = .ok [] ∧
      ∀ putFails2 : Bool,
        (mwVerses versesKeyEncOk versesEncFailCodec true
            (fun _ _ _ => .ok []) 2 [] dbBootAll 0).1 =
          (mwVerses versesKeyEncOk versesEncFailCodec putFails2
              (fun _ _ _ => .ok []) 2 [] dbBootAll 0).1 :=
  verses_write_failure_isolation versesKeyEncOk versesEncFailCodec true
    (fun _ _ _ => .ok []) 2 [] dbBootAll 0 [2] []
    rfl ⟨.eof, rfl⟩ rfl

/-- C7: Key-derivation failure degrades to pass-through for the
decorated `Verses` operation.  If the cache key cannot be derived, the
decorated call delegates to the wrapped API with the original arguments
(counted as exactly one wrapped call) and returns its result and error
unchanged; the store sees neither a read nor a write, and the
key-derivation error `e` is dropped (the result is exactly the wrapped
call's, whatever it is). -/
theorem verses_key_error_passthrough
    (g : versesKeyInput → Except GobErr Bytes) (c : Codec (List Verse))
    (putFails : Bool)
    (next : Nat → Int → List VersesReqOptFn → Except ApiErr (List Verse))
    (chapterID : Int) (reqOpts : List VersesReqOptFn) (db : DB) (calls : Nat)
    (e : GobErr)
    (hk : versesReqOpt.key g (foldVersesOpts reqOpts) chapterID = .error e) :
    mwVerses g c putFails next chapterID reqOpts db calls =
      (next calls chapterID reqOpts, db, calls + 1) := by
  simp [mwVerses, hk]

/-- Witness for C7: a gob key encoder that always fails forces the
decorated call to return exactly the stub wrapped API's answer, with the
store untouched and one wrapped call recorded. -/
theorem verses_key_error_passthrough_witness :
    mwVerses versesKeyEncFails versesMissCodec false
        (fun _ _ _ => .ok []) 2 [] dbBootAll 0 =
      ((fun (_ : Nat) (_ : Int) (_ : List VersesReqOptFn) =>
          (.ok [] : Except ApiErr (List Verse))) 0 2 [], dbBootAll, 1) :=
  verses_key_error_passthrough versesKeyEncFails versesMissCodec false
    (fun _ _ _ => .ok []) 2 [] dbBootAll 0 (.msg "gob encode failed") rfl

/-- Sorting is invariant under permutation of its input: ascending
`sort.Ints` of two lists with the same elements yields identical lists. -/
theorem sortInts_eq_of_perm {l1 l2 : List Int} (h : l1.Perm l2) :
    sortInts l1 = sortInts l2 := by
  unfold sortInts
  haveI anti : IsAntisymm Int (fun a b : Int => a ≤ b) :=
    ⟨fun a b h1 h2 => le_antisymm h1 h2⟩
  haveI tot : IsTotal Int (fun a b : Int => a ≤ b) := ⟨le_total⟩
  haveI tr : IsTrans Int (fun a b : Int => a ≤ b) := ⟨fun a b c => le_trans⟩
  exact @List.eq_of_perm_of_sorted Int (fun a b => a ≤ b) anti _ _
    ((@List.perm_insertionSort Int (fun a b => a ≤ b) Int.decLe l1).trans
      (h.trans (@List.perm_insertionSort Int (fun a b => a ≤ b) Int.decLe l2).symm))
    (@List.sorted_insertionSort Int (fun a b => a ≤ b) Int.decLe tot tr l1)
    (@List.sorted_insertionSort Int (fun a b => a ≤ b) Int.decLe tot tr l2)

/-- C4: Key determinism and order-insensitivity of `versesReqOpt.key`.
For every chapter id and option set the derived key is a deterministic
function of its arguments (applying it twice yields identical bytes),
and two option sets differing only in the order of the elements of
`Media` and/or `Translations` derive byte-identical keys, because both
multi-valued filters are sorted into ascending numeric order before the
structural gob encoding `g` sees them. -/
theorem verses_key_order_insensitive
    (g : versesKeyInput → Except GobErr Bytes) (v : versesReqOpt)
    (chapterID : Int) (m1 m2 t1 t2 : List Int)
    (hm : m1.Perm m2) (ht : t1.Perm t2) :
    versesReqOpt.key g { v with Media := m1, Translations := t1 } chapterID =
      versesReqOpt.key g { v with Media := m1, Translations := t1 } chapterID ∧
    versesReqOpt.key g { v with Media := m1, Translations := t1 } chapterID =
      versesReqOpt.key g { v with Media := m2, Translations := t2 } chapterID := by
  refine ⟨rfl, ?_⟩
  simp [versesReqOpt.key, sortInts_eq_of_perm hm, sortInts_eq_of_perm ht]

/-- Witness for C4: the spec's concrete scenario — translation filters
`[3,1,2]` and `[1,2,3]` (and media filters `[2,1]` and `[1,2]`) against
chapter 2 derive the same key. -/
theorem verses_key_order_insensitive_witness :
    versesReqOpt.key versesKeyEncOk
        { versesReqOptZero with Media := [2, 1], Translations := [3, 1, 2] } 2 =
      versesReqOpt.key versesKeyEncOk
        { versesReqOptZero with Media := [2, 1], Translations := [3, 1, 2] } 2 ∧
    versesReqOpt.key versesKeyEncOk
        { versesReqOptZero with Media := [2, 1], Translations := [3, 1, 2] } 2 =
      versesReqOpt.key versesKeyEncOk
        { versesReqOptZero with Media := [1, 2], Translations := [1, 2, 3] } 2 :=
  verses_key_order_insensitive versesKeyEncOk versesReqOptZero 2
    [2, 1] [1, 2] [3, 1, 2] [1, 2, 3]
    (List.Perm.swap 1 2 [])
    ((List.Perm.swap 1 3 [2]).trans (List.Perm.cons 1 (List.Perm.swap 2 3 [])))

/-- C5: Search bypass.  Every decorated `Search` call delegates to the
wrapped API exactly once with the original query and returns its result
and error untouched; the store is not written (it comes back unchanged)
and not read (the returned value is the same for any two store
contents). -/
theorem search_bypass
    (next : Nat → SearchRequest → Except ApiErr SearchResponse)
    (query : SearchRequest) (db db2 : DB) (calls : Nat) :
    mwSearch next query db calls = (next calls query, db, calls + 1) ∧
      (mwSearch next query db calls).1 = (mwSearch next query db2 calls).1 :=
  ⟨rfl, rfl⟩

/-- C9: Unset/zero filter collapse.  For every scalar-keyed decorated
operation, a call with no language-filter option and a call with the
filter explicitly set to 0 derive byte-identical cache keys — the
textual encoding of the zero value — so the two calls share one cache
entry: against any wrapped-API stub (which, being keyed by the call
counter only, answers both shapes alike, exactly as the real upstream
does since a zero filter adds no query parameter), each of the five
operations (`Recitations`, `Translations`, `Languages`, `Tafsiraat`,
`Chapters`) behaves identically on the two calls, store effects
included. -/
theorem zero_filter_collapse :
    scalarCacheID [] = scalarCacheID [LanguageID 0] ∧
    scalarCacheID [] = strBytes (itoa 0) ∧
    (∀ (c : Codec (List Recitation)) (putFails : Bool)
        (next0 : Nat → Except ApiErr (List Recitation)) (db : DB) (calls : Nat),
      mwRecitations c putFails (fun n _ => next0 n) [] db calls =
        mwRecitations c putFails (fun n _ => next0 n) [LanguageID 0] db calls) ∧
    (∀ (c : Codec (List Translation)) (putFails : Bool)
        (next0 : Nat → Except ApiErr (List Translation)) (db : DB) (calls : Nat),
      mwTranslations c putFails (fun n _ => next0 n) [] db calls =
        mwTranslations c putFails (fun n _ => next0 n) [LanguageID 0] db calls) ∧
    (∀ (c : Codec (List Language)) (putFails : Bool)
        (next0 : Nat → Except ApiErr (List Language)) (db : DB) (calls : Nat),
      mwLanguages c putFails (fun n _ => next0 n) [] db calls =
        mwLanguages c putFails (fun n _ => next0 n) [LanguageID 0] db calls) ∧
    (∀ (c : Codec (List Tafsir)) (putFails : Bool)
        (next0 : Nat → Except ApiErr (List Tafsir)) (db : DB) (calls : Nat),
      mwTafsiraat c putFails (fun n _ => next0 n) [] db calls =
        mwTafsiraat c putFails (fun n _ => next0 n) [LanguageID 0] db calls) ∧
    (∀ (c : Codec (List Chapter)) (putFails : Bool)
        (next0 : Nat → Except ApiErr (List Chapter)) (db : DB) (calls : Nat),
      mwChapters c putFails (fun n _ => next0 n) [] db calls =
        mwChapters c putFails (fun n _ => next0 n) [LanguageID 0] db calls) :=
  ⟨rfl, rfl, fun _ _ _ _ _ => rfl, fun _ _ _ _ _ => rfl, fun _ _ _ _ _ => rfl,
    fun _ _ _ _ _ => rfl, fun _ _ _ _ _ => rfl⟩

/-- C10: Sorted result order of the direct client.  Every successful
`Client.Translations`, `Client.Languages` and `Client.Tafsiraat` call
returns a slice sorted ascending (nondecreasing) in the `ID` field, and
every successful `Client.Chapters` call returns a slice sorted ascending
in `ChapterNumber`, regardless of the order in which the wrapped API
response (the `r` arguments) delivered the entities. -/
theorem client_results_sorted
    (r1 : Except ApiErr (List Translation)) (r2 : Except ApiErr (List Language))
    (r3 : Except ApiErr (List Tafsir)) (r4 : Except ApiErr (List apiChapter))
    (l1 : List Translation) (l2 : List Language) (l3 : List Tafsir)
    (l4 : List Chapter)
    (h1 : clientTranslations r1 = .ok l1)
    (h2 : clientLanguages r2 = .ok l2)
    (h3 : clientTafsiraat r3 = .ok l3)
    (h4 : clientChapters r4 = .ok l4) :
    List.Sorted (fun a b => a.ID ≤ b.ID) l1 ∧
    List.Sorted (fun a b => a.ID ≤ b.ID) l2 ∧
    List.Sorted (fun a b => a.ID ≤ b.ID) l3 ∧
    List.Sorted (fun a b => a.ChapterNumber ≤ b.ChapterNumber) l4 := by
  haveI tot1 : IsTotal Translation (fun a b => a.ID ≤ b.ID) :=
    ⟨fun a b => le_total a.ID b.ID⟩
  haveI tr1 : IsTrans Translation (fun a b => a.ID ≤ b.ID) :=
    ⟨fun a b c h h2 => le_trans h h2⟩
  haveI tot2 : IsTotal Language (fun a b => a.ID ≤ b.ID) :=
    ⟨fun a b => le_total a.ID b.ID⟩
  haveI tr2 : IsTrans Language (fun a b => a.ID ≤ b.ID) :=
    ⟨fun a b c h h2 => le_trans h h2⟩
  haveI tot3 : IsTotal Tafsir (fun a b => a.ID ≤ b.ID) :=
    ⟨fun a b => le_total a.ID b.ID⟩
  haveI tr3 : IsTrans Tafsir (fun a b => a.ID ≤ b.ID) :=
    ⟨fun a b c h h2 => le_trans h h2⟩
  haveI tot4 : IsTotal Chapter (fun a b => a.ChapterNumber ≤ b.ChapterNumber) :=
    ⟨fun a b => le_total a.ChapterNumber b.ChapterNumber⟩
  haveI tr4 : IsTrans Chapter (fun a b => a.ChapterNumber ≤ b.ChapterNumber) :=
    ⟨fun a b c h h2 => le_trans h h2⟩
  refine ⟨?_, ?_, ?_, ?_⟩
  · cases r1 with
    | error e => simp [clientTranslations] at h1
    | ok l =>
      simp only [clientTranslations, Except.ok.injEq] at h1
      subst h1
      exact List.sorted_insertionSort _ l
  · cases r2 with
    | error e => simp [clientLanguages] at h2
    | ok l =>
      simp only [clientLanguages, Except.ok.injEq] at h2
      subst h2
      exact List.sorted_insertionSort _ l
  · cases r3 with
    | error e => simp [clientTafsiraat] at h3
    | ok l =>
      simp only [clientTafsiraat, Except.ok.injEq] at h3
      subst h3
      exact List.sorted_insertionSort _ l
  · cases r4 with
    | error e => simp [clientChapters] at h4
    | ok l =>
      simp only [clientChapters, Except.ok.injEq] at h4
      subst h4
      exact List.sorted_insertionSort _ (l.map apiChapterToChapter)

/-- Witness for C10: sorting concrete out-of-order responses yields
ID-sorted (and chapter-number-sorted) results. -/
theorem client_results_sorted_witness :
    List.Sorted (fun a b => a.ID ≤ b.ID)
      (List.insertionSort (fun (a b : Translation) => a.ID ≤ b.ID)
        [translationA, translationB]) ∧
    List.Sorted (fun a b => a.ID ≤ b.ID)
      (List.insertionSort (fun (a b : Language) => a.ID ≤ b.ID) []) ∧
    List.Sorted (fun a b => a.ID ≤ b.ID)
      (List.insertionSort (fun (a b : Tafsir) => a.ID ≤ b.ID) []) ∧
    List.Sorted (fun a b => a.ChapterNumber ≤ b.ChapterNumber)
      (List.insertionSort (fun (a b : Chapter) => a.ChapterNumber ≤ b.ChapterNumber)
        (List.map apiChapterToChapter [])) :=
  client_results_sorted (.ok [translationA, translationB]) (.ok []) (.ok []) (.ok [])
    _ _ _ _ rfl rfl rfl rfl

/-- C6 counterexample: the claim as stated is false.  A lookup against a
key absent from the `recitations` namespace does not return a
descriptive not-found condition distinguishable from a decode error: the
nil bucket `Get` result is fed straight to the gob decoder, so the
outcome is exactly the decoder's failure on empty input (EOF) — a decode
error — and it is bitwise identical to the outcome of looking up a
present key holding an undecodable zero-length value. -/
theorem absent_key_not_found_cex :
    lookupScalar gobModelRecitations bucketRecitations (strBytes (itoa 0))
        dbRecitationsOnly = gobModelRecitations.dec [] ∧
    gobModelRecitations.dec [] = .error .eof ∧
    lookupScalar gobModelRecitations bucketRecitations (strBytes (itoa 0))
        dbRecitationsOnly =
      lookupScalar gobModelRecitations bucketRecitations (strBytes (itoa 0))
        dbRecitationsCorrupt := by
  refine ⟨?_, rfl, ?_⟩ <;> decide

/-- C6 (amended): a lookup against an absent key yields the value
decoder's empty-input failure (EOF) — a decode error serving as the
cache-miss signal, not a separate not-found condition — while decoding a
stored, validly encoded empty collection succeeds with the empty list,
an outcome distinct from the absent-key one; so "no cached value" and
"value is an empty list" are never confused. -/
theorem absent_key_miss_vs_empty
    (c : Codec (List Recitation)) (db : DB) (k bs : Bytes)
    (hb : hasTop db bucketRecitations = true)
    (habsent : dbGetTop db bucketRecitations k = none)
    (heof : c.dec [] = .error .eof)
    (_henc : c.enc [] = .ok bs)
    (hrt : c.dec bs = .ok []) :
    lookupScalar c bucketRecitations k db = .error .eof ∧
    lookupScalar c bucketRecitations k
        (dbPutTop db bucketRecitations k bs) = .ok [] ∧
    (Except.ok ([] : List Recitation) : Except GobErr (List Recitation)) ≠
      .error .eof := by
  refine ⟨?_, ?_, by simp⟩
  · simp [lookupScalar, valueDecode, habsent, heof]
  · have hget := dbGetTop_dbPutTop_self db bucketRecitations k bs hb
    simp [lookupScalar, valueDecode, hget, hrt]

/-- Witness for the amended C6, on the executable gob-codec model: the
zero-language key is absent from the fresh `recitations` bucket and the
lookup fails with EOF; after storing the encoded empty collection under
that key, the same lookup succeeds with the empty list. -/
theorem absent_key_miss_vs_empty_witness :
    lookupScalar gobModelRecitations bucketRecitations (strBytes (itoa 0))
        dbRecitationsOnly = .error .eof ∧
    lookupScalar gobModelRecitations bucketRecitations (strBytes (itoa 0))
        (dbPutTop dbRecitationsOnly bucketRecitations (strBytes (itoa 0))
          (gobEncRecitations [])) = .ok [] ∧
    (Except.ok ([] : List Recitation) : Except GobErr (List Recitation)) ≠
      .error .eof :=
  absent_key_miss_vs_empty gobModelRecitations dbRecitationsOnly
    (strBytes (itoa 0)) (gobEncRecitations [])
    (by decide) (by decide) rfl rfl rfl

/-! ## Bootstrap lemmas -/

theorem except_bind_ok {α β : Type} {x : Except String α} {g : α → Except String β}
    {b : β} : x.bind g = .ok b ↔ ∃ a, x = .ok a ∧ g a = .ok b := by
  cases x <;> simp [Except.bind]

theorem except_bindM_ok {α β : Type} {x : Except String α} {g : α → Except String β}
    {b : β} : (x >>= g) = .ok b ↔ ∃ a, x = .ok a ∧ g a = .ok b := by
  cases x <;> simp [Bind.bind, Except.bind]

theorem createTop_ok_cases {fail : String → Bool} {db : DB} {n : String} {db2 : DB}
    (h : createTop fail db n = .ok db2) :
    ((assocGet db n).isSome ∧ db2 = db) ∨
      (assocGet db n = none ∧ fail n = false ∧
        db2 = db ++ [(n, { kvs := [], nested := [] })]) := by
  unfold createTop at h
  cases hg : assocGet db n with
  | some b =>
    rw [hg] at h
    simp only [Except.ok.injEq] at h
    exact Or.inl ⟨by simp, h.symm⟩
  | none =>
    rw [hg] at h
    cases hf : fail n with
    | true => rw [hf] at h; simp at h
    | false =>
      rw [hf] at h
      simp only [Bool.false_eq_true, if_false, Except.ok.injEq] at h
      exact Or.inr ⟨rfl, rfl, h.symm⟩

theorem hasTop_append {db : DB} {n q : String} {b2 : Bucket} :
    hasTop (db ++ [(n, b2)]) q =
      (hasTop db q || decide (n = q)) := by
  simp only [hasTop, assocGet_append_single]
  cases hg : assocGet db q with
  | some b => simp
  | none =>
    by_cases hq : n = q <;> simp [hq]

theorem hasNested_append_empty {db : DB} {n q d : String} :
    hasNested (db ++ [(n, { kvs := [], nested := [] })]) q d = hasNested db q d := by
  simp only [hasNested, assocGet_append_single]
  cases hg : assocGet db q with
  | some b => simp
  | none =>
    by_cases hq : n = q <;> simp [hq, assocGet]

theorem createTop_pres {fail : String → Bool} {db : DB} {n : String} {db2 : DB}
    (h : createTop fail db n = .ok db2) :
    (∀ q, hasTop db q = true → hasTop db2 q = true) ∧
      (∀ q d, hasNested db q d = true → hasNested db2 q d = true) ∧
      hasTop db2 n = true := by
  rcases createTop_ok_cases h with ⟨hs, rfl⟩ | ⟨hg, _, rfl⟩
  · exact ⟨fun _ hq => hq, fun _ _ hq => hq, hs⟩
  · refine ⟨fun q hq => ?_, fun q d hq => ?_, ?_⟩
    · rw [hasTop_append, hq]; simp
    · rw [hasNested_append_empty]; exact hq
    · rw [hasTop_append]; simp

theorem createTop_back {fail : String → Bool} {db : DB} {n : String} {db2 : DB}
    (h : createTop fail db n = .ok db2) :
    (∀ q, hasTop db2 q = true → hasTop db q = true ∨ fail q = false) ∧
      (∀ q d, hasNested db2 q d = true → hasNested db q d = true) := by
  rcases createTop_ok_cases h with ⟨hs, rfl⟩ | ⟨hg, hf, rfl⟩
  · exact ⟨fun q hq => Or.inl hq, fun _ _ hq => hq⟩
  · refine ⟨fun q hq => ?_, fun q d hq => ?_⟩
    · rw [hasTop_append] at hq
      rcases Bool.or_eq_true_iff.mp hq with hq1 | hq2
      · exact Or.inl hq1
      · have : n = q := of_decide_eq_true hq2
        subst this
        exact Or.inr hf
    · rw [hasNested_append_empty] at hq; exact hq

theorem createTop_cond {fail : String → Bool} {db : DB} {n : String} {db2 : DB}
    (h : createTop fail db n = .ok db2) :
    hasTop db n = true ∨ fail n = false := by
  rcases createTop_ok_cases h with ⟨hs, _⟩ | ⟨_, hf, _⟩
  · exact Or.inl hs
  · exact Or.inr hf

theorem createTop_noop {fail : String → Bool} {db : DB} {n : String}
    (h : hasTop db n = true) : createTop fail db n = .ok db := by
  unfold createTop
  cases hg : assocGet db n with
  | some b => rfl
  | none => simp [hasTop, hg] at h

theorem createNestedIn_ok_cases {fail : String → Bool} {db : DB} {p c : String}
    {db2 : DB} (h : createNestedIn fail db p c = .ok db2) :
    ∃ b, assocGet db p = some b ∧
      (((assocGet b.nested c).isSome ∧ db2 = db) ∨
        (assocGet b.nested c = none ∧ fail c = false ∧
          db2 = assocUpd db p
            (fun b2 => { b2 with nested := b2.nested ++ [(c, [])] }))) := by
  cases hg : assocGet db p with
  | none =>
    unfold createNestedIn at h
    rw [hg] at h
    simp at h
  | some b =>
    refine ⟨b, rfl, ?_⟩
    cases hn : assocGet b.nested c with
    | some kvs =>
      unfold createNestedIn at h
      rw [hg] at h
      simp only [hn, Except.ok.injEq] at h
      exact Or.inl ⟨by simp, h.symm⟩
    | none =>
      cases hf : fail c with
      | true =>
        unfold createNestedIn at h
        rw [hg] at h
        simp [hn, hf] at h
      | false =>
        unfold createNestedIn at h
        rw [hg] at h
        simp only [hn, hf, Bool.false_eq_true, if_false, Except.ok.injEq] at h
        exact Or.inr ⟨rfl, rfl, h.symm⟩

theorem hasTop_assocUpd {db : DB} {p q : String} {f : Bucket → Bucket} :
    hasTop (assocUpd db p f) q = hasTop db q := by
  by_cases hq : p = q
  · subst hq
    simp only [hasTop, assocGet_assocUpd_self]
    cases assocGet db p <;> simp
  · simp [hasTop, assocGet_assocUpd_ne db p q f hq]

theorem hasNested_addChild_of {db : DB} {p c q d : String} {b : Bucket}
    (hg : assocGet db p = some b)
    (hq : hasNested db q d = true) :
    hasNested (assocUpd db p
      (fun b2 => { b2 with nested := b2.nested ++ [(c, [])] })) q d = true := by
  by_cases hpq : p = q
  · subst hpq
    simp only [hasNested, assocGet_assocUpd_self, hg, Option.map_some',
      Option.getD_some] at hq ⊢
    rw [assocGet_append_single]
    cases hn : assocGet b.nested d with
    | some kvs => simp
    | none => rw [hn] at hq; simp at hq
  · simp only [hasNested, assocGet_assocUpd_ne db p q _ hpq]
    exact hq

theorem hasNested_addChild_back {db : DB} {p c q d : String} {b : Bucket}
    (hg : assocGet db p = some b)
    (hq : hasNested (assocUpd db p
      (fun b2 => { b2 with nested := b2.nested ++ [(c, [])] })) q d = true) :
    hasNested db q d = true ∨ c = d := by
  by_cases hpq : p = q
  · subst hpq
    simp only [hasNested, assocGet_assocUpd_self, hg, Option.map_some',
      Option.getD_some] at hq ⊢
    rw [assocGet_append_single] at hq
    cases hn : assocGet b.nested d with
    | some kvs => simp [hn]
    | none =>
      rw [hn] at hq
      by_cases hcd : c = d
      · exact Or.inr hcd
      · simp [hcd] at hq
  · simp only [hasNested, assocGet_assocUpd_ne db p q _ hpq] at hq
    exact Or.inl hq

theorem createNestedIn_pres {fail : String → Bool} {db : DB} {p c : String}
    {db2 : DB} (h : createNestedIn fail db p c = .ok db2) :
    (∀ q, hasTop db2 q = hasTop db q) ∧
      (∀ q d, hasNested db q d = true → hasNested db2 q d = true) ∧
      hasNested db2 p c = true := by
  obtain ⟨b, hg, hcase⟩ := createNestedIn_ok_cases h
  rcases hcase with ⟨hs, rfl⟩ | ⟨hn, hf, rfl⟩
  · refine ⟨fun q => rfl, fun _ _ hq => hq, ?_⟩
    simp only [hasNested, hg, Option.map_some', Option.getD_some]
    exact hs
  · refine ⟨fun q => hasTop_assocUpd, fun q d hq => hasNested_addChild_of hg hq, ?_⟩
    simp only [hasNested, assocGet_assocUpd_self, hg, Option.map_some',
      Option.getD_some]
    rw [assocGet_append_single, hn]
    simp

theorem createNestedIn_back {fail : String → Bool} {db : DB} {p c : String}
    {db2 : DB} (h : createNestedIn fail db p c = .ok db2) :
    (∀ q, hasTop db2 q = hasTop db q) ∧
      (∀ q d, hasNested db2 q d = true → hasNested db q d = true ∨ fail d = false) := by
  obtain ⟨b, hg, hcase⟩ := createNestedIn_ok_cases h
  rcases hcase with ⟨hs, rfl⟩ | ⟨hn, hf, rfl⟩
  · exact ⟨fun q => rfl, fun _ _ hq => Or.inl hq⟩
  · refine ⟨fun q => hasTop_assocUpd, fun q d hq => ?_⟩
    rcases hasNested_addChild_back hg hq with hq1 | hq2
    · exact Or.inl hq1
    · subst hq2
      exact Or.inr hf

theorem createNestedIn_cond {fail : String → Bool} {db : DB} {p c : String}
    {db2 : DB} (h : createNestedIn fail db p c = .ok db2) :
    hasNested db p c = true ∨ fail c = false := by
  obtain ⟨b, hg, hcase⟩ := createNestedIn_ok_cases h
  rcases hcase with ⟨hs, _⟩ | ⟨_, hf, _⟩
  · left
    simp only [hasNested, hg, Option.map_some', Option.getD_some]
    exact hs
  · exact Or.inr hf

theorem createNestedIn_noop {fail : String → Bool} {db : DB} {p c : String}
    (h : hasNested db p c = true) : createNestedIn fail db p c = .ok db := by
  cases hg : assocGet db p with
  | none => simp [hasNested, hg] at h
  | some b =>
    simp only [hasNested, hg, Option.map_some', Option.getD_some] at h
    cases hn : assocGet b.nested c with
    | none => rw [hn] at h; simp at h
    | some kvs =>
      unfold createNestedIn
      rw [hg]
      simp only [hn]

theorem nestedFold_pres {fail : String → Bool} {p : String} :
    ∀ (cs : List String) (db db2 : DB),
      List.foldlM (fun d c2 => createNestedIn fail d p c2) db cs = .ok db2 →
      (∀ q, hasTop db2 q = hasTop db q) ∧
        (∀ q d, hasNested db q d = true → hasNested db2 q d = true) ∧
        (∀ c2 ∈ cs, hasNested db2 p c2 = true) := by
  intro cs
  induction cs with
  | nil =>
    intro db db2 h
    simp only [List.foldlM_nil] at h
    cases h
    exact ⟨fun _ => rfl, fun _ _ hq => hq, by simp⟩
  | cons c cs ih =>
    intro db db2 h
    simp only [List.foldlM_cons] at h
    obtain ⟨db1, h1, h2⟩ := except_bindM_ok.mp h
    obtain ⟨ht1, hn1, he1⟩ := createNestedIn_pres h1
    obtain ⟨ht2, hn2, he2⟩ := ih db1 db2 h2
    refine ⟨fun q => (ht2 q).trans (ht1 q), fun q d hq => hn2 q d (hn1 q d hq), ?_⟩
    intro c2 hc2
    rcases List.mem_cons.mp hc2 with rfl | hmem
    · exact hn2 p c2 he1
    · exact he2 c2 hmem

theorem nestedFold_back {fail : String → Bool} {p : String} :
    ∀ (cs : List String) (db db2 : DB),
      List.foldlM (fun d c2 => createNestedIn fail d p c2) db cs = .ok db2 →
      (∀ q, hasTop db2 q = hasTop db q) ∧
        (∀ q d, hasNested db2 q d = true → hasNested db q d = true ∨ fail d = false) := by
  intro cs
  induction cs with
  | nil =>
    intro db db2 h
    simp only [List.foldlM_nil] at h
    cases h
    exact ⟨fun _ => rfl, fun _ _ hq => Or.inl hq⟩
  | cons c cs ih =>
    intro db db2 h
    simp only [List.foldlM_cons] at h
    obtain ⟨db1, h1, h2⟩ := except_bindM_ok.mp h
    obtain ⟨ht1, hb1⟩ := createNestedIn_back h1
    obtain ⟨ht2, hb2⟩ := ih db1 db2 h2
    refine ⟨fun q => (ht2 q).trans (ht1 q), fun q d hq => ?_⟩
    rcases hb2 q d hq with hq1 | hq2
    · exact hb1 q d hq1
    · exact Or.inr hq2

theorem nestedFold_cond {fail : String → Bool} {p : String} :
    ∀ (cs : List String) (db db2 : DB),
      List.foldlM (fun d c2 => createNestedIn fail d p c2) db cs = .ok db2 →
      ∀ c2 ∈ cs, hasNested db p c2 = true ∨ fail c2 = false := by
  intro cs
  induction cs with
  | nil => intro db db2 _ c2 hc2; simp at hc2
  | cons c cs ih =>
    intro db db2 h c2 hc2
    simp only [List.foldlM_cons] at h
    obtain ⟨db1, h1, h2⟩ := except_bindM_ok.mp h
    rcases List.mem_cons.mp hc2 with rfl | hmem
    · exact createNestedIn_cond h1
    · rcases ih db1 db2 h2 c2 hmem with hq1 | hq2
      · rcases (createNestedIn_back h1).2 p c2 hq1 with hq3 | hq4
        · exact Or.inl hq3
        · exact Or.inr hq4
      · exact Or.inr hq2

theorem nestedFold_noop {fail : String → Bool} {p : String} :
    ∀ (cs : List String) (db : DB),
      (∀ c2 ∈ cs, hasNested db p c2 = true) →
      List.foldlM (fun d c2 => createNestedIn fail d p c2) db cs = .ok db := by
  intro cs
  induction cs with
  | nil => intro db _; simp [List.foldlM_nil]; rfl
  | cons c cs ih =>
    intro db hall
    simp only [List.foldlM_cons]
    rw [createNestedIn_noop (hall c (by simp))]
    have := ih db (fun c2 hc2 => hall c2 (List.mem_cons_of_mem c hc2))
    simpa [Bind.bind, Except.bind] using this

theorem bootstrapBucket_pres {fail : String → Bool} {db db2 : DB}
    {e : String × List String} (h : bootstrapBucket fail db e = .ok db2) :
    (∀ q, hasTop db q = true → hasTop db2 q = true) ∧
      (∀ q d, hasNested db q d = true → hasNested db2 q d = true) ∧
      (hasTop db2 e.1 = true ∧ ∀ c ∈ e.2, hasNested db2 e.1 c = true) := by
  obtain ⟨db1, h1, h2⟩ := except_bind_ok.mp h
  obtain ⟨ht1, hn1, he1⟩ := createTop_pres h1
  obtain ⟨ht2, hn2, he2⟩ := nestedFold_pres e.2 db1 db2 h2
  refine ⟨fun q hq => ?_, fun q d hq => hn2 q d (hn1 q d hq), ?_, he2⟩
  · rw [ht2 q]; exact ht1 q hq
  · rw [ht2 e.1]; exact he1

theorem bootstrapBucket_back {fail : String → Bool} {db db2 : DB}
    {e : String × List String} (h : bootstrapBucket fail db e = .ok db2) :
    (∀ q, hasTop db2 q = true → hasTop db q = true ∨ fail q = false) ∧
      (∀ q d, hasNested db2 q d = true → hasNested db q d = true ∨ fail d = false) := by
  obtain ⟨db1, h1, h2⟩ := except_bind_ok.mp h
  obtain ⟨ht1, hn1⟩ := createTop_back h1
  obtain ⟨ht2, hb2⟩ := nestedFold_back e.2 db1 db2 h2
  refine ⟨fun q hq => ?_, fun q d hq => ?_⟩
  · rw [ht2 q] at hq
    exact ht1 q hq
  · rcases hb2 q d hq with hq1 | hq2
    · exact Or.inl (hn1 q d hq1)
    · exact Or.inr hq2

theorem bootstrapBucket_cond {fail : String → Bool} {db db2 : DB}
    {e : String × List String} (h : bootstrapBucket fail db e = .ok db2) :
    (hasTop db e.1 = true ∨ fail e.1 = false) ∧
      (∀ c ∈ e.2, hasNested db e.1 c = true ∨ fail c = false) := by
  obtain ⟨db1, h1, h2⟩ := except_bind_ok.mp h
  refine ⟨createTop_cond h1, fun c hc => ?_⟩
  rcases nestedFold_cond e.2 db1 db2 h2 c hc with hq1 | hq2
  · exact Or.inl ((createTop_back h1).2 e.1 c hq1)
  · exact Or.inr hq2

theorem bootstrapBucket_noop {fail : String → Bool} {db : DB}
    {e : String × List String} (htop : hasTop db e.1 = true)
    (hnest : ∀ c ∈ e.2, hasNested db e.1 c = true) :
    bootstrapBucket fail db e = .ok db := by
  unfold bootstrapBucket
  rw [createTop_noop htop]
  simp only [Except.bind]
  exact nestedFold_noop e.2 db hnest

theorem bootFold_pres {fail : String → Bool} :
    ∀ (entries : List (String × List String)) (db db2 : DB),
      List.foldlM (bootstrapBucket fail) db entries = .ok db2 →
      (∀ q, hasTop db q = true → hasTop db2 q = true) ∧
        (∀ q d, hasNested db q d = true → hasNested db2 q d = true) ∧
        (∀ e ∈ entries, hasTop db2 e.1 = true ∧ ∀ c ∈ e.2, hasNested db2 e.1 c = true) := by
  intro entries
  induction entries with
  | nil =>
    intro db db2 h
    simp only [List.foldlM_nil] at h
    cases h
    exact ⟨fun _ hq => hq, fun _ _ hq => hq, by simp⟩
  | cons e entries ih =>
    intro db db2 h
    simp only [List.foldlM_cons] at h
    obtain ⟨db1, h1, h2⟩ := except_bindM_ok.mp h
    obtain ⟨ht1, hn1, he1, hc1⟩ := bootstrapBucket_pres h1
    obtain ⟨ht2, hn2, he2⟩ := ih db1 db2 h2
    refine ⟨fun q hq => ht2 q (ht1 q hq), fun q d hq => hn2 q d (hn1 q d hq), ?_⟩
    intro e2 he2mem
    rcases List.mem_cons.mp he2mem with rfl | hmem
    · exact ⟨ht2 e2.1 he1, fun c hc => hn2 e2.1 c (hc1 c hc)⟩
    · exact he2 e2 hmem

theorem bootFold_cond {fail : String → Bool} :
    ∀ (entries : List (String × List String)) (db db2 : DB),
      List.foldlM (bootstrapBucket fail) db entries = .ok db2 →
      ∀ e ∈ entries,
        (hasTop db e.1 = true ∨ fail e.1 = false) ∧
          (∀ c ∈ e.2, hasNested db e.1 c = true ∨ fail c = false) := by
  intro entries
  induction entries with
  | nil => intro db db2 _ e he; simp at he
  | cons e2 entries ih =>
    intro db db2 h e he
    simp only [List.foldlM_cons] at h
    obtain ⟨db1, h1, h2⟩ := except_bindM_ok.mp h
    rcases List.mem_cons.mp he with rfl | hmem
    · exact bootstrapBucket_cond h1
    · obtain ⟨hc1, hc2⟩ := ih db1 db2 h2 e hmem
      obtain ⟨hbt, hbn⟩ := bootstrapBucket_back h1
      refine ⟨?_, fun c hc => ?_⟩
      · rcases hc1 with hq1 | hq2
        · exact hbt e.1 hq1
        · exact Or.inr hq2
      · rcases hc2 c hc with hq1 | hq2
        · exact hbn e.1 c hq1
        · exact Or.inr hq2

theorem bootFold_noop {fail : String → Bool} :
    ∀ (entries : List (String × List String)) (db : DB),
      (∀ e ∈ entries, hasTop db e.1 = true ∧ ∀ c ∈ e.2, hasNested db e.1 c = true) →
      List.foldlM (bootstrapBucket fail) db entries = .ok db := by
  intro entries
  induction entries with
  | nil => intro db _; rfl
  | cons e entries ih =>
    intro db hall
    simp only [List.foldlM_cons]
    obtain ⟨htop, hnest⟩ := hall e (by simp)
    rw [bootstrapBucket_noop htop hnest]
    have := ih db (fun e2 he2 => hall e2 (List.mem_cons_of_mem e he2))
    simpa [Bind.bind, Except.bind] using this

/-- C8: Bootstrap idempotence and fatality.  If `BoltCache` succeeds
against a store (under any store-failure oracle `fail`), then running it
again against the resulting store succeeds with no error and leaves the
namespace tree unchanged — byte-for-byte the same store — under any
oracle `fail2`, because every required namespace already exists.  And if
some required namespace or nested namespace is absent from a store `db3`
and the oracle `g` makes its creation attempt fail, `BoltCache` returns
an error, and the `Except.error` result carries no cache object: the
decorator is never returned partially initialised. -/
theorem boltcache_bootstrap (fail fail2 g : String → Bool) (db db1 db3 : DB)
    (h1 : BoltCache fail db = .ok db1)
    (h2 : ∃ e ∈ bucketsSpecList,
      (hasTop db3 e.1 = false ∧ g e.1 = true) ∨
        ∃ c ∈ e.2, hasNested db3 e.1 c = false ∧ g c = true) :
    BoltCache fail2 db1 = .ok db1 ∧ ∃ s, BoltCache g db3 = .error s := by
  constructor
  · exact bootFold_noop bucketsSpecList db1
      (bootFold_pres bucketsSpecList db db1 h1).2.2
  · cases hB : BoltCache g db3 with
    | error s => exact ⟨s, rfl⟩
    | ok db4 =>
      exfalso
      obtain ⟨e, he, hcase⟩ := h2
      obtain ⟨hc1, hc2⟩ := bootFold_cond bucketsSpecList db3 db4 hB e he
      rcases hcase with ⟨habs, hg⟩ | ⟨c, hc, habs, hg⟩
      · rcases hc1 with hq1 | hq2
        · rw [habs] at hq1; exact Bool.false_ne_true hq1
        · rw [hg] at hq2; simp at hq2
      · rcases hc2 c hc with hq1 | hq2
        · rw [habs] at hq1; exact Bool.false_ne_true hq1
        · rw [hg] at hq2; simp at hq2

/-- Witness for C8: a clean bootstrap of an empty store yields
`dbBootAll`, a second bootstrap of `dbBootAll` is a no-op with no error
even under the always-failing oracle, and bootstrapping an empty store
under the always-failing oracle returns an error (and hence no cache
object). -/
theorem boltcache_bootstrap_witness :
    BoltCache failAll dbBootAll = .ok dbBootAll ∧
      ∃ s, BoltCache failAll [] = .error s :=
  boltcache_bootstrap failNone failAll failAll [] dbBootAll []
    (by decide) (by decide)

end Quranc
